import Mathlib

/-!
Verification of the guitar chord-diagram renderer (`src/main.py`).

The pure core of the program is embedded shallowly:

* `_calc_fret_start`, `_transpose_shape`, `_build_all_guitar_chords` —
  the chord-shape table generator;
* `render_guitar_svg` — the single-diagram SVG renderer, modelled as a
  function producing the ordered list of draw commands (one `SvgElem`
  per emitted SVG element, coordinates as exact rationals);
* `render_guitar_chords_sheet_svg` — the grid-sheet composer.

Python exceptions (`ValueError`, `ZeroDivisionError`, `KeyError`)
become `Except String`; dictionaries become association lists in
insertion order.
-/

namespace ChordsGenerator

/-- Python `_calc_fret_start(positions)` from `src/main.py`: the first visible
fret derived from the (already transposed) string positions. -/
def calc_fret_start (positions : List Int) : Int :=
  let positives := positions.filter (fun p => p > 0)
  match positives.min? with
  | none => 1
  | some min_pos => if min_pos ≤ 4 then 1 else min_pos - 1

/-- Python `_transpose_shape(template, root_fret)` from `src/main.py`. -/
def transpose_shape (template : List Int) (root_fret : Int) : List Int :=
  template.map (fun p => if p < 0 then -1 else p + root_fret)

/-- The `e_form_templates` dict literal of `_build_all_guitar_chords`. -/
def e_form_templates : List (String × List Int) :=
  [ ("maj",  [0, 2, 2, 1, 0, 0]),
    ("min",  [0, 2, 2, 0, 0, 0]),
    ("7",    [0, 2, 0, 1, 0, 0]),
    ("maj7", [0, 2, 1, 1, 0, 0]),
    ("min7", [0, 2, 0, 0, 0, 0]),
    ("sus2", [0, 2, 2, 4, 0, 0]),
    ("sus4", [0, 2, 2, 2, 0, 0]),
    ("dim",  [0, 1, 2, 0, 2, 0]),
    ("aug",  [0, 3, 2, 1, 1, 0]) ]

/-- The `a_form_templates` dict literal of `_build_all_guitar_chords`. -/
def a_form_templates : List (String × List Int) :=
  [ ("maj",  [-1, 0, 2, 2, 2, 0]),
    ("min",  [-1, 0, 2, 2, 1, 0]),
    ("7",    [-1, 0, 2, 0, 2, 0]),
    ("maj7", [-1, 0, 2, 1, 2, 0]),
    ("min7", [-1, 0, 2, 0, 1, 0]),
    ("sus2", [-1, 0, 2, 2, 0, 0]),
    ("sus4", [-1, 0, 2, 2, 3, 0]),
    ("dim",  [-1, 0, 1, 2, 1, -1]),
    ("aug",  [-1, 0, 3, 2, 2, 1]) ]

/-- The `root_to_e_string_fret` dict literal. -/
def root_to_e_string_fret : List (String × Int) :=
  [ ("C", 8), ("C#", 9), ("D", 10), ("D#", 11), ("E", 0), ("F", 1),
    ("F#", 2), ("G", 3), ("G#", 4), ("A", 5), ("A#", 6), ("B", 7) ]

/-- The `root_to_a_string_fret` dict literal. -/
def root_to_a_string_fret : List (String × Int) :=
  [ ("C", 3), ("C#", 4), ("D", 5), ("D#", 6), ("E", 7), ("F", 8),
    ("F#", 9), ("G", 10), ("G#", 11), ("A", 0), ("A#", 1), ("B", 2) ]

/-- The `use_a_form_for` set literal. -/
def use_a_form_for : List String := ["A", "A#", "B", "C", "C#", "D", "D#"]

/-- The `roots` list literal. -/
def roots : List String :=
  ["C", "C#", "D", "D#", "E", "F"] ++ ["F#", "G", "G#", "A", "A#", "B"]

/-- The `qualities` list literal. -/
def qualities : List String :=
  ["maj", "min", "7", "maj7", "min7", "sus2", "sus4", "dim", "aug"]

/-- One value of the `chords` dict: `{"pos": ..., "fretStart": ...}`. -/
structure ChordShape where
  pos : List Int
  fretStart : Int
deriving DecidableEq, Repr

/-- Python `_build_all_guitar_chords()` from `src/main.py`, as an association
list in the dict's insertion order (outer loop over `roots`, inner loop
over `qualities`). Template/root-fret dict accesses always succeed in
the source; the `getD` defaults are never reached. -/
def build_all_guitar_chords : List (String × ChordShape) :=
  (roots.map (fun root =>
    qualities.map (fun quality =>
      let chord_name := root ++ quality
      let template :=
        if root ∈ use_a_form_for then (a_form_templates.lookup quality).getD []
        else (e_form_templates.lookup quality).getD []
      let root_fret :=
        if root ∈ use_a_form_for then (root_to_a_string_fret.lookup root).getD 0
        else (root_to_e_string_fret.lookup root).getD 0
      let positions := transpose_shape template root_fret
      (chord_name, ChordShape.mk positions (calc_fret_start positions))))).flatten

/-- The module-level table `CHORD_SHAPES_GUITAR`, built at import time. -/
def CHORD_SHAPES_GUITAR : List (String × ChordShape) := build_all_guitar_chords

/-- Transposition as the spec words it (claim C2): every non-muted
(non-negative) template element gets the root fret added, muted (`-1`)
elements pass through unchanged. Stated from the spec, to be compared
with `transpose_shape` from the source. -/
def spec_transpose (template : List Int) (root_fret : Int) : List Int :=
  template.map (fun p => if p = -1 then -1 else p + root_fret)

/-- A barre marking, as the renderer reads it from its `barres` dicts:
`fret`, `fromString`, `toString`, all converted with `int(...)`. -/
structure Barre where
  fret : Int
  fromString : Int
  toString : Int
deriving DecidableEq, Repr

/-- One SVG element emitted by `render_guitar_svg`, carrying the numeric
attributes the f-string would interpolate (coordinates as exact
rationals, Python's float arithmetic on these small dyadic values being
exact). `header`/`footer` are the `<svg ...>` open tag and `</svg>`. -/
inductive SvgElem where
  | header (w h : Int)
  | background
  | titleText (x : ℚ) (y : Int) (name : String)
  | fretLabel (x y : ℚ) (fret_start : Int)
  | line (x1 y1 x2 y2 : ℚ) (width : ℚ) (rounded : Bool)
  | marker (x y : ℚ) (glyph : String)
  | circle (cx cy r : ℚ)
  | footer
deriving DecidableEq, Repr

/-- Layout constant `margin_top = 60`. -/
def margin_top : ℚ := 60

/-- Layout constant `margin_left = 40`. -/
def margin_left : ℚ := 40

/-- Layout constant `grid_w = 180`. -/
def grid_w : ℚ := 180

/-- Layout constant `grid_h = 220`. -/
def grid_h : ℚ := 220

/-- Layout constant `strings = 6`. -/
def strings : Nat := 6

/-- Layout value `string_gap = grid_w / (strings - 1)`. -/
def string_gap : ℚ := grid_w / ((strings : ℚ) - 1)

/-- Layout value `fret_gap = grid_h / frets` where `frets = frets_visible`. -/
def fret_gap (frets : Int) : ℚ := grid_h / (frets : ℚ)

/-- Helper `x_for_string(i)`. -/
def x_for_string (i : Int) : ℚ := margin_left + i * string_gap

/-- Helper `y_for_fret_line(fret_index_0_based)`. -/
def y_for_fret_line (f : Int) (frets : Int) : ℚ :=
  margin_top + f * fret_gap frets

/-- Helper `y_for_fret_center(fret_number)`: absolute fret mapped to the
center of its visible row. -/
def y_for_fret_center (fret_number fret_start frets : Int) : ℚ :=
  margin_top + (((fret_number - fret_start : Int) : ℚ) + 1/2) * fret_gap frets

/-- The optional "fret N" label block (emitted when `fret_start != 1`). -/
def fret_label_elems (fret_start : Int) : List SvgElem :=
  if fret_start ≠ 1 then
    [.fretLabel (margin_left + grid_w + 18) (margin_top + 14) fret_start]
  else []

/-- The nut line: thickness 6 when `fret_start == 1`, else 2. -/
def nut_elem (fret_start : Int) : SvgElem :=
  .line margin_left margin_top (margin_left + grid_w) margin_top
    (if fret_start = 1 then 6 else 2) false

/-- The interior fret lines, `for f in range(1, frets + 1)`. -/
def fret_line_elems (frets : Int) : List SvgElem :=
  (List.range' 1 frets.toNat).map (fun f =>
    .line margin_left (y_for_fret_line f frets)
      (margin_left + grid_w) (y_for_fret_line f frets) 2 false)

/-- The vertical string lines, `for s in range(strings)`. -/
def string_line_elems : List SvgElem :=
  (List.range strings).map (fun s =>
    .line (x_for_string s) margin_top (x_for_string s) (margin_top + grid_h)
      2 false)

/-- The open/mute glyphs above the nut, `for i, p in enumerate(positions)`. -/
def marker_elems (positions : List Int) : List SvgElem :=
  positions.enum.filterMap (fun ip =>
    if ip.2 = -1 then some (.marker (x_for_string ip.1) (margin_top - 18) "x")
    else if ip.2 = 0 then some (.marker (x_for_string ip.1) (margin_top - 18) "o")
    else none)

/-- The barre bars, `for b in barres`: string numbers 1..6 converted via
`6 - stringNumber`, the segment spans min-to-max of the converted pair. -/
def barre_elems (barres : List Barre) (fret_start frets_visible : Int) :
    List SvgElem :=
  barres.map (fun b =>
    let a := 6 - b.fromString
    let c := 6 - b.toString
    let y := y_for_fret_center b.fret fret_start frets_visible
    .line (x_for_string (min a c)) y (x_for_string (max a c)) y 10 true)

/-- The finger dots, `for i, p in enumerate(positions)`: skipped when
`p <= 0` or when `p` is outside `[fret_start, fret_start+frets_visible)`. -/
def dot_elems (positions : List Int) (fret_start frets_visible : Int) :
    List SvgElem :=
  positions.enum.filterMap (fun ip =>
    if ip.2 ≤ 0 then none
    else if ¬ (fret_start ≤ ip.2 ∧ ip.2 < fret_start + frets_visible) then none
    else some (.circle (x_for_string ip.1)
      (y_for_fret_center ip.2 fret_start frets_visible) 10))

/-- Python `render_guitar_svg` from `src/main.py`, as the ordered list of the
strings it appends to `svg`, one `SvgElem` per append. A positions list
whose length is not 6 raises `ValueError`; `frets_visible = 0` makes the
eager `fret_gap = grid_h / frets` raise `ZeroDivisionError` in Python,
modelled as its own error message. -/
def render_guitar_svg (name : String) (positions : List Int)
    (fret_start : Int) (frets_visible : Int) (barres : List Barre) :
    Except String (List SvgElem) :=
  if positions.length ≠ 6 then
    .error "positions must have 6 values for guitar"
  else if frets_visible = 0 then
    .error "float division by zero"
  else
    .ok ([.header 260 360, .background, .titleText ((260 : ℚ) / 2) 32 name]
      ++ fret_label_elems fret_start
      ++ [nut_elem fret_start]
      ++ fret_line_elems frets_visible
      ++ string_line_elems
      ++ marker_elems positions
      ++ barre_elems barres fret_start frets_visible
      ++ dot_elems positions fret_start frets_visible
      ++ [.footer])

/-- Python `_extract_inner_svg`: everything strictly between the end of the
`<svg ...>` open tag and the final `</svg>` — on the element list, the
list without its `header` head and `footer` last element. -/
def extract_inner_svg (elems : List SvgElem) : List SvgElem :=
  (elems.drop 1).dropLast

/-- One element of the sheet SVG produced by
`render_guitar_chords_sheet_svg`: its own header/background/footer plus
one translated `<g>` group per chord holding that chord's inner diagram
elements. -/
inductive SheetElem where
  | header (w h : Int)
  | background
  | group (tx ty : Int) (inner : List SvgElem)
  | footer
deriving DecidableEq, Repr

/-- Sheet layout constant `cell_w = 260`. -/
def cell_w : Int := 260

/-- Sheet layout constant `cell_h = 360`. -/
def cell_h : Int := 360

/-- Sheet layout constant `gap_x = 20`. -/
def gap_x : Int := 20

/-- Sheet layout constant `gap_y = 24`. -/
def gap_y : Int := 24

/-- The sheet's `for idx, chord in enumerate(chords)` loop body over the
remaining `(idx, chord)` pairs: each iteration looks the chord up in
`CHORD_SHAPES_GUITAR` (a missing key raises `KeyError`), renders the
single diagram with the stored `fretStart` and the defaults
`frets_visible = 5`, `barres = None`, and appends the translated `<g>`
group; the first exception aborts the whole loop. Python's `//` and `%`
are floor division and floor modulus, hence `Int.fdiv` / `Int.fmod`. -/
def sheet_groups (columns : Int) : List (Nat × String) → Except String (List SheetElem)
  | [] => .ok []
  | ic :: rest =>
    match CHORD_SHAPES_GUITAR.lookup ic.2 with
    | none => .error ("KeyError: " ++ ic.2)
    | some shape =>
      match render_guitar_svg ic.2 shape.pos shape.fretStart 5 [] with
      | .error e => .error e
      | .ok single =>
        match sheet_groups columns rest with
        | .error e => .error e
        | .ok gs =>
          .ok (SheetElem.group
            (gap_x + ((ic.1 : Int).fmod columns) * (cell_w + gap_x))
            (gap_y + ((ic.1 : Int).fdiv columns) * (cell_h + gap_y))
            (extract_inner_svg single) :: gs)

/-- Python `render_guitar_chords_sheet_svg` from `src/main.py`: the two guard
errors, then the header/background, one translated group per chord (via
`sheet_groups`), and the closing tag. -/
def render_guitar_chords_sheet_svg (chords : List String) (columns : Int) :
    Except String (List SheetElem) :=
  if chords = [] then .error "chords list cannot be empty"
  else if columns ≤ 0 then .error "columns must be greater than 0"
  else
    let rows : Int := ((chords.length : Int) + columns - 1).fdiv columns
    let total_w := columns * cell_w + (columns + 1) * gap_x
    let total_h := rows * cell_h + (rows + 1) * gap_y
    match sheet_groups columns chords.enum with
    | .error e => .error e
    | .ok groups =>
        .ok ([.header total_w total_h, .background] ++ groups ++ [.footer])

/-! ## Theorems -/

lemma min?_filter_pos_eq_some {positions : List Int} {m : Int}
    (hmem : m ∈ positions) (hpos : 0 < m)
    (hmin : ∀ p ∈ positions, 0 < p → m ≤ p) :
    (positions.filter (fun p => p > 0)).min? = some m := by
  haveI : Std.Antisymm ((· : Int) ≤ ·) := ⟨fun h h' => le_antisymm h h'⟩
  rw [List.min?_eq_some_iff (fun a : Int => le_refl a)
    (fun a b => min_choice a b) (fun a b c => le_min_iff)]
  constructor
  · rw [List.mem_filter]
    exact ⟨hmem, by simpa using hpos⟩
  · intro b hb
    rw [List.mem_filter] at hb
    exact hmin b hb.1 (by simpa using hb.2)

/-- C1: for every list of integer positions, `_calc_fret_start` returns 1
when the list has no strictly positive value; otherwise, with `m` the
minimum strictly positive value, it returns 1 when `m ≤ 4` and `m - 1`
when `m > 4`. -/
theorem calc_fret_start_window (positions : List Int) :
    ((∀ p ∈ positions, p ≤ 0) → calc_fret_start positions = 1) ∧
    (∀ m : Int, m ∈ positions → 0 < m → (∀ p ∈ positions, 0 < p → m ≤ p) →
      calc_fret_start positions = if m ≤ 4 then 1 else m - 1) := by
  constructor
  · intro hall
    have hnil : positions.filter (fun p => p > 0) = [] := by
      rw [List.filter_eq_nil_iff]
      intro a ha
      simpa using not_lt.mpr (hall a ha)
    simp [calc_fret_start, hnil]
  · intro m hmem hpos hmin
    simp [calc_fret_start, min?_filter_pos_eq_some hmem hpos hmin]

/-- Witness for C1 at concrete inputs: `[-1, 6, 8, 0]` has minimum
positive value `6 > 4`, giving `fretStart = 5`; `[-1, 0]` has no
positive value, giving `fretStart = 1`. -/
theorem calc_fret_start_window_witness :
    calc_fret_start [-1, 6, 8, 0] = 5 ∧ calc_fret_start [-1, 0] = 1 := by
  have h1 := (calc_fret_start_window [-1, 6, 8, 0]).2 6 (by decide) (by decide)
    (by decide)
  have h2 := (calc_fret_start_window [-1, 0]).1 (by decide)
  exact ⟨by simpa using h1, h2⟩

/-- C2: every table entry keyed `root ++ quality` has positions equal to
the quality's A-form template when the root is one of
{A, A#, B, C, C#, D, D#} and its E-form template otherwise, transposed
by that root's root fret, where transposition (`spec_transpose`) adds
the root fret to every non-muted element and passes `-1` through. -/
theorem chord_table_entries (root : String) (hr : root ∈ roots)
    (quality : String) (hq : quality ∈ qualities) :
    (CHORD_SHAPES_GUITAR.lookup (root ++ quality)).map ChordShape.pos =
      some (spec_transpose
        ((if root ∈ use_a_form_for then a_form_templates.lookup quality
          else e_form_templates.lookup quality).getD [])
        ((if root ∈ use_a_form_for then root_to_a_string_fret.lookup root
          else root_to_e_string_fret.lookup root).getD 0)) := by
  revert root quality
  have h : ∀ root ∈ roots, ∀ quality ∈ qualities,
      (CHORD_SHAPES_GUITAR.lookup (root ++ quality)).map ChordShape.pos =
        some (spec_transpose
          ((if root ∈ use_a_form_for then a_form_templates.lookup quality
            else e_form_templates.lookup quality).getD [])
          ((if root ∈ use_a_form_for then root_to_a_string_fret.lookup root
            else root_to_e_string_fret.lookup root).getD 0)) := by decide
  exact h

/-- Witness for C2 at root `"C"` (an A-form root with root fret 3) and
quality `"maj"`: the `"Cmaj"` entry's positions are the A-form major
template `[-1, 0, 2, 2, 2, 0]` shifted by 3. -/
theorem chord_table_entries_witness :
    (CHORD_SHAPES_GUITAR.lookup ("C" ++ "maj")).map ChordShape.pos =
      some [-1, 3, 5, 5, 5, 3] := by
  have h := chord_table_entries "C" (by decide) "maj" (by decide)
  simpa using h

/-- C3: the table has 108 entries with pairwise distinct keys, one key
`root ++ quality` for each of the 12 roots and 9 qualities, and every
entry's positions list has length 6 with each value in
`{-1, 0} ∪ [1, 24]`. -/
theorem chord_table_shape :
    CHORD_SHAPES_GUITAR.length = 108 ∧
    (CHORD_SHAPES_GUITAR.map Prod.fst).Nodup ∧
    (∀ root ∈ roots, ∀ quality ∈ qualities,
      (root ++ quality) ∈ CHORD_SHAPES_GUITAR.map Prod.fst) ∧
    (∀ e ∈ CHORD_SHAPES_GUITAR,
      e.2.pos.length = 6 ∧
      ∀ v ∈ e.2.pos, v = -1 ∨ v = 0 ∨ (1 ≤ v ∧ v ≤ 24)) := by
  refine ⟨by decide, by decide, by decide, by decide⟩

/-- C4: `render_guitar_svg` fails with the `InvalidDiagram` error
("positions must have 6 values for guitar") exactly when its positions
list does not have length 6; with a 6-element list this error never
occurs (for any window parameters and barres). -/
theorem render_invalid_diagram (name : String) (positions : List Int)
    (fret_start frets_visible : Int) (barres : List Barre) :
    render_guitar_svg name positions fret_start frets_visible barres =
        Except.error "positions must have 6 values for guitar" ↔
      positions.length ≠ 6 := by
  unfold render_guitar_svg
  split_ifs with h1 h2 <;> simp_all

lemma circle_not_mem_fret_label_elems {fs : Int} {cx cy r : ℚ} :
    SvgElem.circle cx cy r ∉ fret_label_elems fs := by
  unfold fret_label_elems
  split <;> simp

lemma circle_not_mem_fret_line_elems {frets : Int} {cx cy r : ℚ} :
    SvgElem.circle cx cy r ∉ fret_line_elems frets := by
  unfold fret_line_elems
  simp

lemma circle_not_mem_string_line_elems {cx cy r : ℚ} :
    SvgElem.circle cx cy r ∉ string_line_elems := by
  unfold string_line_elems
  simp

lemma circle_not_mem_marker_elems {positions : List Int} {cx cy r : ℚ} :
    SvgElem.circle cx cy r ∉ marker_elems positions := by
  unfold marker_elems
  simp only [List.mem_filterMap]
  rintro ⟨ip, -, hf⟩
  split_ifs at hf <;> simp_all

lemma circle_not_mem_barre_elems {barres : List Barre} {fs fv : Int} {cx cy r : ℚ} :
    SvgElem.circle cx cy r ∉ barre_elems barres fs fv := by
  unfold barre_elems
  simp

lemma circle_mem_dot_elems_iff {positions : List Int} {fs fv : Int} {cx cy r : ℚ} :
    SvgElem.circle cx cy r ∈ dot_elems positions fs fv ↔
      ∃ (k : Nat) (p : Int), positions[k]? = some p ∧
        0 < p ∧ fs ≤ p ∧ p < fs + fv ∧
        cx = x_for_string (k : Int) ∧ cy = y_for_fret_center p fs fv ∧
        r = 10 := by
  unfold dot_elems
  simp only [List.mem_filterMap]
  constructor
  · rintro ⟨⟨k, p⟩, hmem, hf⟩
    rw [List.mk_mem_enum_iff_getElem?] at hmem
    dsimp only at hf
    split_ifs at hf with h1 h2
    simp only [Option.some.injEq, SvgElem.circle.injEq] at hf
    exact ⟨k, p, hmem, by omega, h2.1, h2.2,
      hf.1.symm, hf.2.1.symm, hf.2.2.symm⟩
  · rintro ⟨k, p, hk, hp, hlo, hhi, rfl, rfl, rfl⟩
    refine ⟨(k, p), List.mk_mem_enum_iff_getElem?.mpr hk, ?_⟩
    dsimp only
    rw [if_neg (by omega), if_neg (by simp [hlo, hhi])]

lemma x_for_string_inj {a b : Int} (h : x_for_string a = x_for_string b) :
    a = b := by
  unfold x_for_string string_gap grid_w margin_left strings at h
  norm_num at h
  exact_mod_cast h

lemma circle_mem_render_iff {name : String} {positions : List Int}
    {fs fv : Int} {barres : List Barre} {elems : List SvgElem}
    (hok : render_guitar_svg name positions fs fv barres = Except.ok elems)
    {cx cy r : ℚ} :
    SvgElem.circle cx cy r ∈ elems ↔
      SvgElem.circle cx cy r ∈ dot_elems positions fs fv := by
  unfold render_guitar_svg at hok
  split_ifs at hok
  simp only [Except.ok.injEq] at hok
  subst hok
  simp only [List.mem_append, List.mem_cons, List.mem_singleton]
  constructor
  · rintro ((((((((h | h) | h) | h) | h) | h) | h) | h) | h)
    · simp at h
    · exact absurd h circle_not_mem_fret_label_elems
    · exact absurd h (by simp [nut_elem])
    · exact absurd h circle_not_mem_fret_line_elems
    · exact absurd h circle_not_mem_string_line_elems
    · exact absurd h circle_not_mem_marker_elems
    · exact absurd h circle_not_mem_barre_elems
    · exact h
    · simp at h
  · intro h
    tauto

/-- C5: for a 6-element positions list (and a well-formed fret window),
the rendered diagram contains a finger-dot circle on string `i` exactly
when `positions[i]` is strictly positive and lies inside
`[fret_start, fret_start + frets_visible)`; a positive fret outside the
window yields no dot and no error. -/
theorem dot_iff_positive_and_visible (name : String) (positions : List Int)
    (hlen : positions.length = 6) (fret_start frets_visible : Int)
    (hfv : frets_visible ≠ 0) (barres : List Barre)
    (i : Nat) (hi : i < 6) :
    ∃ elems,
      render_guitar_svg name positions fret_start frets_visible barres =
        Except.ok elems ∧
      ((∃ cy r, SvgElem.circle (x_for_string (i : Int)) cy r ∈ elems) ↔
        (0 < positions[i] ∧
         fret_start ≤ positions[i] ∧
         positions[i] < fret_start + frets_visible)) := by
  obtain ⟨elems, hok⟩ : ∃ elems,
      render_guitar_svg name positions fret_start frets_visible barres =
        Except.ok elems := by
    unfold render_guitar_svg
    rw [if_neg (by omega), if_neg hfv]
    exact ⟨_, rfl⟩
  refine ⟨elems, hok, ?_⟩
  simp only [circle_mem_render_iff hok, circle_mem_dot_elems_iff]
  constructor
  · rintro ⟨cy, r, k, p, hk, hp, hlo, hhi, hx, -, -⟩
    have hki : (i : Int) = (k : Int) := x_for_string_inj hx
    have hki' : i = k := by exact_mod_cast hki
    subst hki'
    rw [List.getElem?_eq_getElem (by omega)] at hk
    simp only [Option.some.injEq] at hk
    rw [hk]
    exact ⟨hp, hlo, hhi⟩
  · rintro ⟨hp, hlo, hhi⟩
    exact ⟨y_for_fret_center positions[i] fret_start frets_visible, 10,
      i, positions[i],
      by rw [List.getElem?_eq_getElem (by omega)],
      hp, hlo, hhi, rfl, rfl, rfl⟩

/-- Witness for C5 at the spec's concrete case
`positions = [-1, 3, 2, 0, 1, 0]`, `fret_start = 1`, default window:
string 1 carries fret 3, inside `[1, 6)`, so its dot is emitted. -/
theorem dot_iff_positive_and_visible_witness :
    ∃ elems,
      render_guitar_svg "C" [-1, 3, 2, 0, 1, 0] 1 5 [] = Except.ok elems ∧
      ∃ cy r, SvgElem.circle (x_for_string ((1 : Nat) : Int)) cy r ∈ elems := by
  obtain ⟨elems, hok, hiff⟩ :=
    dot_iff_positive_and_visible "C" [-1, 3, 2, 0, 1, 0] (by decide) 1 5
      (by decide) [] 1 (by decide)
  exact ⟨elems, hok, hiff.mpr (by decide)⟩

lemma barre_line_mem_render {name : String} {positions : List Int}
    {fs fv : Int} {barres : List Barre} {elems : List SvgElem} {b : Barre}
    (hok : render_guitar_svg name positions fs fv barres = Except.ok elems)
    (hb : b ∈ barres) :
    SvgElem.line (x_for_string (min (6 - b.fromString) (6 - b.toString)))
      (y_for_fret_center b.fret fs fv)
      (x_for_string (max (6 - b.fromString) (6 - b.toString)))
      (y_for_fret_center b.fret fs fv) 10 true ∈ elems := by
  unfold render_guitar_svg at hok
  split_ifs at hok
  simp only [Except.ok.injEq] at hok
  subst hok
  have hmem : SvgElem.line
      (x_for_string (min (6 - b.fromString) (6 - b.toString)))
      (y_for_fret_center b.fret fs fv)
      (x_for_string (max (6 - b.fromString) (6 - b.toString)))
      (y_for_fret_center b.fret fs fv) 10 true ∈ barre_elems barres fs fv := by
    unfold barre_elems
    exact List.mem_map_of_mem _ hb
  simp only [List.mem_append]
  tauto

/-- C6: every barre's string pair (1..6, high-to-low) is converted via
`6 - stringNumber` and drawn as one horizontal segment from the x of the
smaller converted index to the x of the larger, vertically centered on
the barre's fret row; for the pair {6, 5} the converted indices are
{0, 1} whichever way round the pair is given. -/
theorem barre_min_max_segment (name : String) (positions : List Int)
    (hlen : positions.length = 6) (fret_start frets_visible : Int)
    (hfv : frets_visible ≠ 0) (barres : List Barre) (b : Barre)
    (hb : b ∈ barres) :
    ∃ elems,
      render_guitar_svg name positions fret_start frets_visible barres =
        Except.ok elems ∧
      SvgElem.line (x_for_string (min (6 - b.fromString) (6 - b.toString)))
        (y_for_fret_center b.fret fret_start frets_visible)
        (x_for_string (max (6 - b.fromString) (6 - b.toString)))
        (y_for_fret_center b.fret fret_start frets_visible) 10 true ∈ elems ∧
      ((b.fromString = 6 ∧ b.toString = 5) ∨
          (b.fromString = 5 ∧ b.toString = 6) →
        min (6 - b.fromString) (6 - b.toString) = 0 ∧
        max (6 - b.fromString) (6 - b.toString) = 1) := by
  obtain ⟨elems, hok⟩ : ∃ elems,
      render_guitar_svg name positions fret_start frets_visible barres =
        Except.ok elems := by
    unfold render_guitar_svg
    rw [if_neg (by omega), if_neg hfv]
    exact ⟨_, rfl⟩
  refine ⟨elems, hok, barre_line_mem_render hok hb, ?_⟩
  rintro (⟨h1, h2⟩ | ⟨h1, h2⟩) <;> rw [h1, h2] <;> exact ⟨by decide, by decide⟩

/-- Witness for C6: a single `Barre` with `fromString = 6`,
`toString = 5` at fret 1 on an all-open diagram produces the segment
from `x_for_string 0` to `x_for_string 1`. -/
theorem barre_min_max_segment_witness :
    ∃ elems,
      render_guitar_svg "E" [0, 0, 0, 0, 0, 0] 1 5 [Barre.mk 1 6 5] =
        Except.ok elems ∧
      SvgElem.line (x_for_string 0) (y_for_fret_center 1 1 5)
        (x_for_string 1) (y_for_fret_center 1 1 5) 10 true ∈ elems := by
  obtain ⟨elems, hok, hmem, hconv⟩ :=
    barre_min_max_segment "E" [0, 0, 0, 0, 0, 0] (by decide) 1 5 (by decide)
      [Barre.mk 1 6 5] (Barre.mk 1 6 5) (by decide)
  refine ⟨elems, hok, ?_⟩
  obtain ⟨hmin, hmax⟩ := hconv (Or.inl ⟨rfl, rfl⟩)
  rw [hmin, hmax] at hmem
  exact hmem

/-- C10: a barre's line element is emitted unconditionally — here even
under the assumption that its fret lies outside the visible window
`[fret_start, fret_start + frets_visible)`, unlike finger dots no
visibility check is applied. -/
theorem barre_drawn_outside_window (name : String) (positions : List Int)
    (hlen : positions.length = 6) (fret_start frets_visible : Int)
    (hfv : frets_visible ≠ 0) (barres : List Barre) (b : Barre)
    (hb : b ∈ barres)
    (hout : ¬ (fret_start ≤ b.fret ∧ b.fret < fret_start + frets_visible)) :
    ∃ elems,
      render_guitar_svg name positions fret_start frets_visible barres =
        Except.ok elems ∧
      SvgElem.line (x_for_string (min (6 - b.fromString) (6 - b.toString)))
        (y_for_fret_center b.fret fret_start frets_visible)
        (x_for_string (max (6 - b.fromString) (6 - b.toString)))
        (y_for_fret_center b.fret fret_start frets_visible) 10 true
      ∈ elems := by
  obtain ⟨elems, hok⟩ : ∃ elems,
      render_guitar_svg name positions fret_start frets_visible barres =
        Except.ok elems := by
    unfold render_guitar_svg
    rw [if_neg (by omega), if_neg hfv]
    exact ⟨_, rfl⟩
  exact ⟨elems, hok, barre_line_mem_render hok hb⟩

/-- Witness for C10: a barre at fret 9 with the default window `[1, 6)`
(fret 9 invisible) is still drawn on an all-open diagram. -/
theorem barre_drawn_outside_window_witness :
    ∃ elems,
      render_guitar_svg "E" [0, 0, 0, 0, 0, 0] 1 5 [Barre.mk 9 6 1] =
        Except.ok elems ∧
      SvgElem.line (x_for_string (min (6 - (6 : Int)) (6 - (1 : Int))))
        (y_for_fret_center 9 1 5)
        (x_for_string (max (6 - (6 : Int)) (6 - (1 : Int))))
        (y_for_fret_center 9 1 5) 10 true ∈ elems :=
  barre_drawn_outside_window "E" [0, 0, 0, 0, 0, 0] (by decide) 1 5
    (by decide) [Barre.mk 9 6 1] (Barre.mk 9 6 1) (by decide) (by decide)

lemma mem_fret_line_elems_shape {frets : Int} {e : SvgElem}
    (h : e ∈ fret_line_elems frets) :
    ∃ y, e = SvgElem.line margin_left y (margin_left + grid_w) y 2 false := by
  unfold fret_line_elems at h
  simp only [List.mem_map] at h
  obtain ⟨f, -, rfl⟩ := h
  exact ⟨_, rfl⟩

lemma mem_string_line_elems_shape {e : SvgElem} (h : e ∈ string_line_elems) :
    ∃ x, e = SvgElem.line x margin_top x (margin_top + grid_h) 2 false := by
  unfold string_line_elems at h
  simp only [List.mem_map] at h
  obtain ⟨s, -, rfl⟩ := h
  exact ⟨_, rfl⟩

lemma mem_marker_elems_shape {positions : List Int} {e : SvgElem}
    (h : e ∈ marker_elems positions) :
    ∃ x y g, e = SvgElem.marker x y g := by
  unfold marker_elems at h
  simp only [List.mem_filterMap] at h
  obtain ⟨ip, -, hf⟩ := h
  split_ifs at hf <;> simp only [Option.some.injEq] at hf <;>
    exact ⟨_, _, _, hf.symm⟩

lemma mem_barre_elems_shape {barres : List Barre} {fs fv : Int} {e : SvgElem}
    (h : e ∈ barre_elems barres fs fv) :
    ∃ x1 y x2, e = SvgElem.line x1 y x2 y 10 true := by
  unfold barre_elems at h
  simp only [List.mem_map] at h
  obtain ⟨b, -, rfl⟩ := h
  exact ⟨_, _, _, rfl⟩

lemma mem_dot_elems_shape {positions : List Int} {fs fv : Int} {e : SvgElem}
    (h : e ∈ dot_elems positions fs fv) :
    ∃ cx cy, e = SvgElem.circle cx cy 10 := by
  unfold dot_elems at h
  simp only [List.mem_filterMap] at h
  obtain ⟨ip, -, hf⟩ := h
  split_ifs at hf <;> simp only [Option.some.injEq] at hf <;>
    exact ⟨_, _, hf.symm⟩

lemma fretLabel_mem_render_iff {name : String} {positions : List Int}
    {fs fv : Int} {barres : List Barre} {elems : List SvgElem}
    (hok : render_guitar_svg name positions fs fv barres = Except.ok elems)
    {x y : ℚ} {n : Int} :
    SvgElem.fretLabel x y n ∈ elems ↔
      SvgElem.fretLabel x y n ∈ fret_label_elems fs := by
  unfold render_guitar_svg at hok
  split_ifs at hok
  simp only [Except.ok.injEq] at hok
  subst hok
  constructor
  · intro hmem
    simp only [List.mem_append] at hmem
    rcases hmem with ((((((((h | h) | h) | h) | h) | h) | h) | h) | h)
    · simp at h
    · exact h
    · simp [nut_elem] at h
    · obtain ⟨_, h⟩ := mem_fret_line_elems_shape h
      simp at h
    · obtain ⟨_, h⟩ := mem_string_line_elems_shape h
      simp at h
    · obtain ⟨_, _, _, h⟩ := mem_marker_elems_shape h
      simp at h
    · obtain ⟨_, _, _, h⟩ := mem_barre_elems_shape h
      simp at h
    · obtain ⟨_, _, h⟩ := mem_dot_elems_shape h
      simp at h
    · simp at h
  · intro h
    simp only [List.mem_append]
    tauto

lemma wide_plain_line_mem_render_iff {name : String} {positions : List Int}
    {fs fv : Int} {barres : List Barre} {elems : List SvgElem}
    (hok : render_guitar_svg name positions fs fv barres = Except.ok elems)
    {x1 y1 x2 y2 w : ℚ} (hw : 2 < w) :
    SvgElem.line x1 y1 x2 y2 w false ∈ elems ↔
      SvgElem.line x1 y1 x2 y2 w false = nut_elem fs := by
  unfold render_guitar_svg at hok
  split_ifs at hok
  simp only [Except.ok.injEq] at hok
  subst hok
  constructor
  · intro hmem
    simp only [List.mem_append] at hmem
    rcases hmem with ((((((((h | h) | h) | h) | h) | h) | h) | h) | h)
    · simp at h
    · exact absurd h (by unfold fret_label_elems; split <;> simp)
    · rw [List.mem_singleton] at h
      exact h
    · obtain ⟨_, h⟩ := mem_fret_line_elems_shape h
      rw [SvgElem.line.injEq] at h
      rw [h.2.2.2.2.1] at hw
      exact absurd hw (by norm_num)
    · obtain ⟨_, h⟩ := mem_string_line_elems_shape h
      rw [SvgElem.line.injEq] at h
      rw [h.2.2.2.2.1] at hw
      exact absurd hw (by norm_num)
    · obtain ⟨_, _, _, h⟩ := mem_marker_elems_shape h
      simp at h
    · obtain ⟨_, _, _, h⟩ := mem_barre_elems_shape h
      rw [SvgElem.line.injEq] at h
      simp at h
    · obtain ⟨_, _, h⟩ := mem_dot_elems_shape h
      simp at h
    · simp at h
  · intro h
    simp only [List.mem_append]
    exact Or.inl (Or.inl (Or.inl (Or.inl (Or.inl (Or.inl
      (Or.inr (List.mem_singleton.mpr h)))))))

/-- C9: the rendered diagram carries the "fret N" label exactly when
`fret_start ≠ 1`, and its nut — the full-width line along the top
boundary of the grid, drawn without rounded caps — has a stroke width
strictly greater than the interior fret lines' width 2 exactly when
`fret_start = 1`. -/
theorem fret_label_and_nut_thickness (name : String) (positions : List Int)
    (hlen : positions.length = 6) (fret_start frets_visible : Int)
    (hfv : frets_visible ≠ 0) (barres : List Barre) :
    ∃ elems,
      render_guitar_svg name positions fret_start frets_visible barres =
        Except.ok elems ∧
      ((∃ x y, SvgElem.fretLabel x y fret_start ∈ elems) ↔ fret_start ≠ 1) ∧
      ((∃ w, SvgElem.line margin_left margin_top (margin_left + grid_w)
          margin_top w false ∈ elems ∧ 2 < w) ↔ fret_start = 1) := by
  obtain ⟨elems, hok⟩ : ∃ elems,
      render_guitar_svg name positions fret_start frets_visible barres =
        Except.ok elems := by
    unfold render_guitar_svg
    rw [if_neg (by omega), if_neg hfv]
    exact ⟨_, rfl⟩
  refine ⟨elems, hok, ?_, ?_⟩
  · simp only [fretLabel_mem_render_iff hok]
    unfold fret_label_elems
    split
    · next h => simp [h]
    · next h => simp [h]
  · constructor
    · rintro ⟨w, hmem, hw⟩
      rw [wide_plain_line_mem_render_iff hok hw] at hmem
      unfold nut_elem at hmem
      by_contra hfs
      rw [if_neg hfs, SvgElem.line.injEq] at hmem
      have : w = 2 := hmem.2.2.2.2.1
      rw [this] at hw
      exact absurd hw (by norm_num)
    · intro hfs
      refine ⟨6, ?_, by norm_num⟩
      rw [wide_plain_line_mem_render_iff hok (by norm_num)]
      unfold nut_elem
      rw [if_pos hfs]

/-- Witness for C9 at a concrete render with `fret_start = 7`: the
"fret 7" label is present and no wide plain top line exists (the nut is
drawn thin). -/
theorem fret_label_and_nut_thickness_witness :
    ∃ elems,
      render_guitar_svg "A" [0, 0, 7, 8, 9, 0] 7 5 [] = Except.ok elems ∧
      (∃ x y, SvgElem.fretLabel x y 7 ∈ elems) ∧
      ¬ (∃ w, SvgElem.line margin_left margin_top (margin_left + grid_w)
          margin_top w false ∈ elems ∧ 2 < w) := by
  obtain ⟨elems, hok, hlabel, hnut⟩ :=
    fret_label_and_nut_thickness "A" [0, 0, 7, 8, 9, 0] (by decide) 7 5
      (by decide) []
  refine ⟨elems, hok, hlabel.mpr (by decide), ?_⟩
  intro hw
  exact absurd (hnut.mp hw) (by decide)

lemma table_entry_pos_length : ∀ e ∈ CHORD_SHAPES_GUITAR, e.2.pos.length = 6 := by
  decide

lemma lookup_mem {l : List (String × ChordShape)} {k : String} {v : ChordShape}
    (h : l.lookup k = some v) : (k, v) ∈ l := by
  rw [List.lookup_eq_some_iff] at h
  obtain ⟨l₁, l₂, rfl, -⟩ := h
  simp

lemma render_table_ok {c : String} {shape : ChordShape}
    (h : CHORD_SHAPES_GUITAR.lookup c = some shape) :
    ∃ elems, render_guitar_svg c shape.pos shape.fretStart 5 [] =
      Except.ok elems := by
  have hlen : shape.pos.length = 6 :=
    table_entry_pos_length (c, shape) (lookup_mem h)
  unfold render_guitar_svg
  rw [if_neg (by omega), if_neg (by norm_num)]
  exact ⟨_, rfl⟩

lemma sheet_groups_ok {columns : Int} {l : List (Nat × String)}
    (hfound : ∀ p ∈ l, (CHORD_SHAPES_GUITAR.lookup p.2).isSome) :
    ∃ gs, sheet_groups columns l = Except.ok gs ∧ gs.length = l.length ∧
      ∀ j (hj : j < l.length), ∃ inner,
        gs[j]? = some (SheetElem.group
          (gap_x + (((l.get ⟨j, hj⟩).1 : Int).fmod columns) * (cell_w + gap_x))
          (gap_y + (((l.get ⟨j, hj⟩).1 : Int).fdiv columns) * (cell_h + gap_y))
          inner) := by
  induction l with
  | nil =>
    exact ⟨[], rfl, rfl, fun j hj => absurd hj (by simp)⟩
  | cons ic rest ih =>
    obtain ⟨shape, hlook⟩ := Option.isSome_iff_exists.mp
      (hfound ic (List.mem_cons_self ic rest))
    obtain ⟨single, hrender⟩ := render_table_ok hlook
    obtain ⟨gs, hgs, hlen, hidx⟩ :=
      ih (fun p hp => hfound p (List.mem_cons_of_mem _ hp))
    refine ⟨SheetElem.group
        (gap_x + ((ic.1 : Int).fmod columns) * (cell_w + gap_x))
        (gap_y + ((ic.1 : Int).fdiv columns) * (cell_h + gap_y))
        (extract_inner_svg single) :: gs, ?_, ?_, ?_⟩
    · simp only [sheet_groups, hlook, hrender, hgs]
    · simp [hlen]
    · intro j hj
      cases j with
      | zero => exact ⟨extract_inner_svg single, by simp⟩
      | succ j' =>
        have hj' : j' < rest.length := by simpa using hj
        obtain ⟨inner, hin⟩ := hidx j' hj'
        exact ⟨inner, by simpa using hin⟩

lemma ceil_div_eq {n c : Int} (hc : 0 < c) :
    (n + c - 1).fdiv c = ⌈(n : ℚ) / (c : ℚ)⌉ := by
  have hc0 : (0 : ℚ) < (c : ℚ) := by exact_mod_cast hc
  have hne : c ≠ 0 := by omega
  have heq := Int.ediv_add_emod (n + c - 1) c
  have hr0 : 0 ≤ (n + c - 1) % c := Int.emod_nonneg _ hne
  have hrc : (n + c - 1) % c < c := Int.emod_lt_of_pos _ hc
  rw [Int.fdiv_eq_ediv _ (by omega)]
  symm
  rw [Int.ceil_eq_iff]
  refine ⟨?_, ?_⟩
  · have k1 : ((n + c - 1) / c - 1) * c < n := by nlinarith [heq, hr0, hrc]
    rw [lt_div_iff₀ hc0]
    exact_mod_cast k1
  · have k2 : n ≤ ((n + c - 1) / c) * c := by nlinarith [heq, hr0, hrc]
    rw [div_le_iff₀ hc0]
    exact_mod_cast k2

/-- C7: for a non-empty chord list with all names present in the table
and a positive column count, the sheet places diagram `i` in a group
translated by `(gap_x + col * (cell_w + gap_x),
gap_y + row * (cell_h + gap_y))` with `row = i / columns` and
`col = i % columns` (row-major), and its header height is computed from
a row count equal to `⌈length / columns⌉`. -/
theorem sheet_grid_layout (chords : List String) (columns : Int)
    (hne : chords ≠ []) (hcols : 0 < columns)
    (hfound : ∀ c ∈ chords, (CHORD_SHAPES_GUITAR.lookup c).isSome)
    (i : Nat) (hi : i < chords.length) :
    ∃ elems,
      render_guitar_chords_sheet_svg chords columns = Except.ok elems ∧
      elems.length = chords.length + 3 ∧
      (∃ inner, elems[2 + i]? = some (SheetElem.group
        (gap_x + ((i : Int) % columns) * (cell_w + gap_x))
        (gap_y + ((i : Int) / columns) * (cell_h + gap_y)) inner)) ∧
      ∃ r : Int,
        elems[0]? = some (SheetElem.header
          (columns * cell_w + (columns + 1) * gap_x)
          (r * cell_h + (r + 1) * gap_y)) ∧
        r = ⌈(chords.length : ℚ) / (columns : ℚ)⌉ := by
  have henum : ∀ p ∈ chords.enum, (CHORD_SHAPES_GUITAR.lookup p.2).isSome :=
    fun p hp => hfound p.2 (List.snd_mem_of_mem_enum hp)
  obtain ⟨gs, hgs, hlen, hidx⟩ := @sheet_groups_ok columns chords.enum henum
  rw [List.enum_length] at hlen
  obtain ⟨inner, hin⟩ := hidx i (by rw [List.enum_length]; exact hi)
  refine ⟨[SheetElem.header (columns * cell_w + (columns + 1) * gap_x)
      ((((chords.length : Int) + columns - 1).fdiv columns) * cell_h +
        ((((chords.length : Int) + columns - 1).fdiv columns) + 1) * gap_y),
    SheetElem.background] ++ gs ++ [SheetElem.footer], ?_, ?_, ?_, ?_⟩
  · unfold render_guitar_chords_sheet_svg
    rw [if_neg hne, if_neg (by omega), hgs]
  · simp [hlen]
  · refine ⟨inner, ?_⟩
    have hcons : ([SheetElem.header (columns * cell_w + (columns + 1) * gap_x)
        ((((chords.length : Int) + columns - 1).fdiv columns) * cell_h +
          ((((chords.length : Int) + columns - 1).fdiv columns) + 1) * gap_y),
        SheetElem.background] ++ gs ++ [SheetElem.footer])[2 + i]? =
        (gs ++ [SheetElem.footer])[i]? := by
      rw [show 2 + i = i + 1 + 1 by omega]
      simp only [List.append_assoc, List.cons_append, List.nil_append,
        List.getElem?_cons_succ]
    rw [hcons, List.getElem?_append_left (by omega), hin]
    have hfst : (chords.enum.get ⟨i, by rw [List.enum_length]; exact hi⟩).1 = i := by
      rw [List.get_eq_getElem, List.getElem_enum]
    rw [hfst, Int.fmod_eq_emod _ (by omega), Int.fdiv_eq_ediv _ (by omega)]
  · refine ⟨((chords.length : Int) + columns - 1).fdiv columns, rfl, ?_⟩
    exact ceil_div_eq hcols

/-- Witness for C7: 5 chords at 4 columns — the chord at index 4 goes to
row 1, column 0 (translation `(20, 408)`), and the row count is
`⌈5 / 4⌉ = 2`. -/
theorem sheet_grid_layout_witness :
    ∃ elems,
      render_guitar_chords_sheet_svg
        ["Cmaj", "Dmaj", "Emaj", "Fmaj", "Gmaj"] 4 = Except.ok elems ∧
      elems.length = 8 ∧
      (∃ inner, elems[6]? = some (SheetElem.group 20 408 inner)) ∧
      elems[0]? = some (SheetElem.header 1140 792) := by
  obtain ⟨elems, hok, hlen, ⟨inner, hin⟩, ⟨r, hhead, hr⟩⟩ :=
    sheet_grid_layout ["Cmaj", "Dmaj", "Emaj", "Fmaj", "Gmaj"] 4
      (by decide) (by decide) (by decide) 4 (by decide)
  have hr2 : r = 2 := by
    rw [hr]
    norm_num [Int.ceil_eq_iff]
  refine ⟨elems, hok, hlen, ⟨inner, ?_⟩, ?_⟩
  · rw [show (6 : Nat) = 2 + 4 by rfl]
    rw [hin]
    norm_num [gap_x, gap_y, cell_w, cell_h]
  · rw [hhead, hr2]
    norm_num [gap_x, gap_y, cell_w, cell_h]

lemma keyerror_head (c : String) :
    ("KeyError: " ++ c).data.head? = some (Char.ofNat 75) := rfl

lemma keyerror_ne_empty_msg (c : String) :
    ("KeyError: " ++ c) ≠ "chords list cannot be empty" := by
  intro h
  have hh : ("KeyError: " ++ c).data.head? =
      ("chords list cannot be empty").data.head? := by rw [h]
  rw [keyerror_head] at hh
  exact absurd hh (by decide)

lemma keyerror_ne_layout_msg (c : String) :
    ("KeyError: " ++ c) ≠ "columns must be greater than 0" := by
  intro h
  have hh : ("KeyError: " ++ c).data.head? =
      ("columns must be greater than 0").data.head? := by rw [h]
  rw [keyerror_head] at hh
  exact absurd hh (by decide)

lemma sheet_groups_error_shape {columns : Int} {l : List (Nat × String)}
    {e : String} (h : sheet_groups columns l = Except.error e) :
    (∃ c, e = "KeyError: " ++ c) ∨
    e = "positions must have 6 values for guitar" ∨
    e = "float division by zero" := by
  induction l with
  | nil => exact absurd h (by simp [sheet_groups])
  | cons ic rest ih =>
    rw [sheet_groups] at h
    cases hlook : CHORD_SHAPES_GUITAR.lookup ic.2 with
    | none =>
      simp only [hlook, Except.error.injEq] at h
      exact Or.inl ⟨ic.2, h.symm⟩
    | some shape =>
      simp only [hlook] at h
      cases hr : render_guitar_svg ic.2 shape.pos shape.fretStart 5 [] with
      | error e2 =>
        simp only [hr, Except.error.injEq] at h
        subst h
        unfold render_guitar_svg at hr
        split_ifs at hr with hc1 hc2
        · simp only [Except.error.injEq] at hr
          exact Or.inr (Or.inl hr.symm)
        · simp only [Except.error.injEq] at hr
          exact Or.inr (Or.inr hr.symm)
      | ok single =>
        simp only [hr] at h
        cases hg : sheet_groups columns rest with
        | error e3 =>
          simp only [hg, Except.error.injEq] at h
          subst h
          exact ih hg
        | ok gs =>
          simp only [hg] at h
          exact absurd h (by simp)

/-- C8: the sheet renderer fails with the `EmptyInput` error ("chords
list cannot be empty") exactly when the chord list is empty, and with
the `InvalidLayout` error ("columns must be greater than 0") exactly
when the list is non-empty and the column count is non-positive; with a
non-empty list and positive columns neither of these two errors occurs. -/
theorem sheet_error_conditions (chords : List String) (columns : Int) :
    (render_guitar_chords_sheet_svg chords columns =
        Except.error "chords list cannot be empty" ↔ chords = []) ∧
    (render_guitar_chords_sheet_svg chords columns =
        Except.error "columns must be greater than 0" ↔
      chords ≠ [] ∧ columns ≤ 0) := by
  unfold render_guitar_chords_sheet_svg
  by_cases h1 : chords = []
  · rw [if_pos h1]
    refine ⟨by simp [h1], ?_⟩
    constructor
    · intro hcontra
      simp only [Except.error.injEq] at hcontra
      exact absurd hcontra (by decide)
    · rintro ⟨hne, -⟩
      exact absurd h1 hne
  · rw [if_neg h1]
    by_cases h2 : columns ≤ 0
    · rw [if_pos h2]
      refine ⟨?_, by simp [h1, h2]⟩
      constructor
      · intro hcontra
        simp only [Except.error.injEq] at hcontra
        exact absurd hcontra (by decide)
      · intro hc
        exact absurd hc h1
    · rw [if_neg h2]
      cases hg : sheet_groups columns chords.enum with
      | ok gs =>
        exact ⟨by simp [hg, h1], by simp [hg, h1, h2]⟩
      | error e =>
        have hshape := sheet_groups_error_shape hg
        refine ⟨⟨?_, fun hc => absurd hc h1⟩,
          ⟨?_, fun hc => absurd hc.2 h2⟩⟩
        · simp only [hg]
          intro hcontra
          simp only [Except.error.injEq] at hcontra
          rcases hshape with ⟨c, hc⟩ | hc | hc
          · rw [hc] at hcontra
            exact absurd hcontra (keyerror_ne_empty_msg c)
          · rw [hc] at hcontra
            exact absurd hcontra (by decide)
          · rw [hc] at hcontra
            exact absurd hcontra (by decide)
        · simp only [hg]
          intro hcontra
          simp only [Except.error.injEq] at hcontra
          rcases hshape with ⟨c, hc⟩ | hc | hc
          · rw [hc] at hcontra
            exact absurd hcontra (keyerror_ne_layout_msg c)
          · rw [hc] at hcontra
            exact absurd hcontra (by decide)
          · rw [hc] at hcontra
            exact absurd hcontra (by decide)

end ChordsGenerator
